import Mathlib

/-!
Verification of the CVS-ai chat application (`src/unnamed/part_000`, `src/types.ts`).

The file shallowly embeds the pure logic of the application:

* the data model of `src/types.ts` (`MessageRole`, `Message`, `Conversation`);
* the streaming-response assembler `updateLastMessage` (part_000:256-277);
* the turn orchestrator `submitMessage` (part_000:307-492), with the remote
  AI service, the cancellation flag and the stream modelled as an explicit
  environment (`TurnEnv`);
* the conversation store operation `deleteChat` (part_000:518-536);
* the persistence effect that strips image payloads (part_000:131-153);
* the title generator `getChatTitle` (part_000:279-293);
* the attachment validator `handleFileChange` (part_000:649-677).

Modelling conventions:

* JavaScript strings are Lean `String`s; the JavaScript primitives
  `endsWith` / `slice(0,-1)` / `substring(i)` / `trim` / `startsWith` are
  modelled character-wise on `String.data` (`jsEndsWith`, `jsDropLast1`,
  `jsSubstringFrom`, `jsTrim`, `jsStartsWith`) so that every definition is
  executable by kernel reduction.  The cursor glyph U+258B is a single
  UTF-16 code unit, so dropping the last character models `slice(0,-1)`.
* Conversation ids `chat_<ts>` are modelled by their numeric timestamp
  component `<ts> : Nat` (the source always compares ids through
  `parseInt(id.split('_')[1])`).
* The `Record<string, Conversation>` store is modelled as the list of its
  values in insertion order; `delete map[id]` becomes a filter on ids.
* The in-place mutation `current.messages.push(...)` /
  `messages.pop()` / mutation of the last element become the corresponding
  pure list operations on the current conversation's message list.
* Remote calls are modelled by a `TurnEnv` record holding each call's
  outcome (`Except` for throw/return); the streamed response is the list of
  its text chunks, a possible exception index, and the index at which the
  user's cancellation flag (`isStoppedRef`) becomes set.
-/

namespace CVSai

/-- The `MessageRole` from src/types.ts. -/
inductive MessageRole where
  | user
  | model
  | error
deriving DecidableEq, Repr

/-- The `Message` from src/types.ts: role, text content, optional image payload. -/
structure Message where
  role : MessageRole
  content : String
  imageUrl : Option String
deriving DecidableEq, Repr

/-- The `Conversation` from src/types.ts; `id` is the numeric timestamp of the
`chat_<ts>` identifier. -/
structure Conversation where
  id : Nat
  title : String
  messages : List Message
deriving DecidableEq, Repr

/-- The two pieces of store state of the App component that the
conversation-store claims are about (part_000:43-44). -/
structure Store where
  conversations : List Conversation
  currentChatId : Option Nat
deriving DecidableEq, Repr

/-! ## JavaScript string primitives, modelled character-wise -/

/-- JavaScript `s.endsWith(t)`. -/
def jsEndsWith (s t : String) : Bool :=
  t.data.isSuffixOf s.data

/-- JavaScript `s.slice(0, -1)`: drop the last code unit. -/
def jsDropLast1 (s : String) : String :=
  ⟨s.data.dropLast⟩

/-- JavaScript `s.substring(i)`: the suffix starting at index `i`. -/
def jsSubstringFrom (s : String) (i : Nat) : String :=
  ⟨s.data.drop i⟩

/-- JavaScript `s.trim()`: strip leading and trailing whitespace. -/
def jsTrim (s : String) : String :=
  ⟨(((s.data.dropWhile Char.isWhitespace).reverse.dropWhile Char.isWhitespace).reverse)⟩

/-- JavaScript `s.startsWith(t)`. -/
def jsStartsWith (s t : String) : Bool :=
  t.data.isPrefixOf s.data

/-! ## Constants of part_000 -/

/-- The `LOADING_INDICATOR_CONTENT` (part_000:33), the loading-placeholder
sentinel content. -/
def LOADING_INDICATOR_CONTENT : String := "___LOADING___"

/-- The streaming cursor glyph appended while a chunk is pending
(part_000:269-273). -/
def cursorGlyph : String := "▋"

/-- The terminal marker appended on user cancellation (part_000:466). -/
def stopMarker : String := "\n\n— Generation stopped by user —"

/-! ## Message stream assembler: `updateLastMessage` (part_000:256-277) -/

/-- The content transformation inside `updateLastMessage`
(part_000:266-273): reset the sentinel to empty, strip a trailing cursor
glyph, then append the chunk and, unless done, a fresh cursor glyph. -/
def applyContent (currentContent contentChunk : String) (isDone : Bool) : String :=
  let c :=
    if currentContent = LOADING_INDICATOR_CONTENT then ""
    else if jsEndsWith currentContent cursorGlyph then jsDropLast1 currentContent
    else currentContent
  c ++ contentChunk ++ (if isDone then "" else cursorGlyph)

/-- The `updateLastMessage` (part_000:256-277), restricted to the current
conversation's message list: mutate the last message's content when that
message exists and has the model role. -/
def updateLastMessage (msgs : List Message) (contentChunk : String) (isDone : Bool) :
    List Message :=
  match msgs.getLast? with
  | none => msgs
  | some lastMessage =>
    if lastMessage.role = MessageRole.model then
      msgs.dropLast ++
        [{ lastMessage with content := applyContent lastMessage.content contentChunk isDone }]
    else msgs

/-- Apply a sequence of stream chunks, each via `updateLastMessage` with
`isDone = false` (the loop of part_000:458-463). -/
def applyChunks (msgs : List Message) (chunks : List String) : List Message :=
  chunks.foldl (fun ms c => updateLastMessage ms c false) msgs

/-- The concatenation of a list of chunks. -/
def concatChunks (chunks : List String) : String :=
  chunks.foldr (fun a b => a ++ b) ""

/-- The content evolution under a sequence of non-final chunk applications. -/
def foldContent (c : String) (chunks : List String) : String :=
  chunks.foldl (fun s ch => applyContent s ch false) c

/-! ## Turn orchestrator: `submitMessage` (part_000:307-492) -/

/-- The role/text pair sent per history entry to the remote streaming call
(part_000:449-452 builds `{ role, parts: [{ text }] }`). -/
structure HistoryEntry where
  role : MessageRole
  text : String
deriving DecidableEq, Repr

/-- The history filter of part_000:447: keep messages that are not
error-role and carry no image. -/
def keepInHistory (m : Message) : Bool :=
  !(m.role = MessageRole.error) && m.imageUrl.isNone

/-- part_000:449-452: project a message to the remote-call history entry. -/
def toHistoryEntry (m : Message) : HistoryEntry :=
  ⟨m.role, m.content⟩

/-- part_000:446-452: the chat history built for the remote streaming call —
filter out error-role and image-bearing messages, drop the two most recent
entries (`slice(0, -2)`), project. -/
def buildChatHistory (msgs : List Message) : List HistoryEntry :=
  (((msgs.filter keepInHistory).dropLast).dropLast).map toHistoryEntry

/-- The three dispatch paths of part_000:357/394/445. -/
inductive DispatchPath where
  | imageGen
  | imageUnderstand
  | textStream
deriving DecidableEq, Repr

/-- The path selection of `submitMessage`: the `'/generate '` lexical test
on the trimmed input (part_000:357), else attachment presence
(part_000:394), else plain-text streaming (part_000:445). -/
def dispatchPath (messageContent : String) (hasImageFile : Bool) : DispatchPath :=
  if jsStartsWith (jsTrim messageContent) "/generate " then DispatchPath.imageGen
  else if hasImageFile then DispatchPath.imageUnderstand
  else DispatchPath.textStream

/-- Environment of a single turn: outcome of each possible remote
interaction, the streamed chunks, the index (in pulls) at which the stream
throws, and the pull index at which the user's cancellation flag becomes
set (`none` = the corresponding event never happens). -/
structure TurnEnv where
  apiKey : Bool
  genImage : Except String String
  fileB64 : Except String String
  genContent : Except String (String × Option String)
  chunks : List String
  streamErr : Option (Nat × String)
  stopAt : Option Nat
deriving Repr

/-- Whether the cancellation flag `isStoppedRef` is set by the time of pull
number `k` of the stream. -/
def flagSet : Option Nat → Nat → Bool
  | some j, k => decide (j ≤ k)
  | none, _ => false

/-- Whether pulling the stream at index `k` throws, and with which message. -/
def errNow : Option (Nat × String) → Nat → Option String
  | some (j, e), k => if j = k then some e else none
  | none, _ => none

/-- Outcome of the `for await` chunk-consumption loop (part_000:458-463):
normal exhaustion, `break` on the cancellation flag, or a thrown stream
exception. -/
inductive StreamOutcome where
  | completed
  | stoppedBreak
  | threw (e : String)
deriving DecidableEq, Repr

/-- The chunk-consumption loop of part_000:458-463.  Each iteration pulls
the next chunk (which may throw), then the loop body checks the
cancellation flag and either breaks or applies the chunk via
`updateLastMessage`; `acc` is the `fullResponse` accumulator. -/
def streamLoop (env : TurnEnv) :
    List String → Nat → List Message → String → List Message × String × StreamOutcome
  | chunks, k, msgs, acc =>
    match errNow env.streamErr k with
    | some e => (msgs, acc, StreamOutcome.threw e)
    | none =>
      match chunks with
      | [] => (msgs, acc, StreamOutcome.completed)
      | c :: rest =>
        if flagSet env.stopAt k then (msgs, acc, StreamOutcome.stoppedBreak)
        else streamLoop env rest (k + 1) (updateLastMessage msgs c false) (acc ++ c)

/-- The user-facing error text of the catch block (part_000:472-478). -/
def friendlyMessage (messageContent : String) (hasImageFile : Bool) (e : String) : String :=
  if hasImageFile then
    "Sorry, I couldn't process that image. It might be in an unsupported format or exceed size limits. Please try another image. (Details: " ++ e ++ ")"
  else if jsStartsWith (jsTrim messageContent) "/generate " then
    "Sorry, the image could not be generated. Please adjust your prompt or try again later. (Details: " ++ e ++ ")"
  else
    "An error occurred: " ++ e

/-- Observable result of one `submitMessage` turn on the current
conversation: its message list, the `isLoading` flag after the `finally`
clause (part_000:489-491), whether title generation was triggered
(part_000:341-350), the history passed to the remote streaming call when
the streaming path ran, and the exception caught by the catch block, if
any. -/
structure TurnResult where
  messages : List Message
  isLoading : Bool
  titleRequested : Bool
  history : Option (List HistoryEntry)
  caught : Option String
deriving DecidableEq, Repr

/-- The catch block of part_000:472-488: pop the last message (the
placeholder slot) and push an error-role message with the friendly text. -/
def catchTurn (msgsNow : List Message) (messageContent : String) (hasImageFile : Bool)
    (titleReq : Bool) (history : Option (List HistoryEntry)) (e : String) : TurnResult :=
  ⟨msgsNow.dropLast ++
      [⟨MessageRole.error, friendlyMessage messageContent hasImageFile e, none⟩],
    false, titleReq, history, some e⟩

/-- The streaming branch of part_000:445-470: run the loop, then on a
thrown exception fall to the catch block, on cancellation finalize with the
stop marker, otherwise finalize with the empty chunk. -/
def streamBranch (env : TurnEnv) (messageContent : String) (hasImageFile : Bool)
    (titleReq : Bool) (history : List HistoryEntry) (msgs1 : List Message) : TurnResult :=
  match streamLoop env env.chunks 0 msgs1 "" with
  | (msgs2, _, StreamOutcome.threw e) =>
      catchTurn msgs2 messageContent hasImageFile titleReq (some history) e
  | (msgs2, _, StreamOutcome.stoppedBreak) =>
      ⟨updateLastMessage msgs2 stopMarker true, false, titleReq, some history, none⟩
  | (msgs2, _, StreamOutcome.completed) =>
      if flagSet env.stopAt env.chunks.length then
        ⟨updateLastMessage msgs2 stopMarker true, false, titleReq, some history, none⟩
      else
        ⟨updateLastMessage msgs2 "" true, false, titleReq, some history, none⟩

/-- One `submitMessage` turn (part_000:307-492) on the current
conversation, whose pre-turn message list is `prior`.  `imageFile` is the
staged attachment (its presence drives dispatch and the catch wording),
`imagePreview` the staged preview data URL recorded on the user message.
The guard of part_000:308 is the outer `if`; the remote multimodal
response parsing of part_000:412-425 is abstracted by
`env.genContent = ok (responseText, responseImageUrl)`. -/
def submitTurn (env : TurnEnv) (messageContent : String)
    (imageFile imagePreview : Option String) (prior : List Message) : TurnResult :=
  if jsTrim messageContent = "" ∧ imageFile = none then
    ⟨prior, false, false, none, none⟩
  else
    let userMessage : Message := ⟨MessageRole.user, messageContent, imagePreview⟩
    let msgs1 := prior ++ [userMessage, ⟨MessageRole.model, LOADING_INDICATOR_CONTENT, none⟩]
    let titleReq : Bool :=
      prior.isEmpty && !(messageContent = "") &&
        !(jsStartsWith (jsTrim messageContent) "/generate")
    if env.apiKey = false then
      catchTurn msgs1 messageContent imageFile.isSome titleReq none
        "API_KEY environment variable not set."
    else
      match dispatchPath messageContent imageFile.isSome with
      | DispatchPath.imageGen =>
        let prompt := jsTrim (jsSubstringFrom messageContent 10)
        if prompt = "" then
          catchTurn msgs1 messageContent imageFile.isSome titleReq none
            "Please provide a prompt for image generation."
        else
          match env.genImage with
          | Except.error e => catchTurn msgs1 messageContent imageFile.isSome titleReq none e
          | Except.ok bytes =>
            ⟨msgs1.dropLast ++
                [⟨MessageRole.model, "> " ++ prompt,
                  some ("data:image/jpeg;base64," ++ bytes)⟩],
              false, titleReq, none, none⟩
      | DispatchPath.imageUnderstand =>
        match env.fileB64 with
        | Except.error e => catchTurn msgs1 messageContent imageFile.isSome titleReq none e
        | Except.ok _ =>
          match env.genContent with
          | Except.error e => catchTurn msgs1 messageContent imageFile.isSome titleReq none e
          | Except.ok (responseText, responseImageUrl) =>
            let mc :=
              if !(responseText = "") then responseText
              else if responseImageUrl.isSome then ""
              else "Image processed successfully."
            ⟨msgs1.dropLast ++ [⟨MessageRole.model, mc, responseImageUrl⟩],
              false, titleReq, none, none⟩
      | DispatchPath.textStream =>
        streamBranch env messageContent imageFile.isSome titleReq
          (buildChatHistory msgs1) msgs1

/-! ## Conversation store: `deleteChat` (part_000:518-536) -/

/-- One step of the descending insertion sort modelling
`.sort((a, b) => parseInt(b...) - parseInt(a...))` (part_000:525). -/
def insertDesc (x : Nat) : List Nat → List Nat
  | [] => [x]
  | y :: ys => if y ≤ x then x :: y :: ys else y :: insertDesc x ys

/-- Sort ids in descending (most recently created first) order. -/
def sortIdsDesc (l : List Nat) : List Nat :=
  l.foldr insertDesc []

/-- The `deleteChat` (part_000:518-536): remove the conversation, and when it
was the active one pick the most recently created remaining conversation,
or synthesize a fresh `"New Chat"` (with the current timestamp `now`) when
none remain. -/
def deleteChat (s : Store) (id : Nat) (now : Nat) : Store :=
  if s.currentChatId = some id then
    match sortIdsDesc ((s.conversations.filter (fun c => !(c.id = id))).map Conversation.id) with
    | i :: _ => ⟨s.conversations.filter (fun c => !(c.id = id)), some i⟩
    | [] =>
      ⟨s.conversations.filter (fun c => !(c.id = id)) ++ [⟨now, "New Chat", []⟩], some now⟩
  else ⟨s.conversations.filter (fun c => !(c.id = id)), s.currentChatId⟩

/-! ## Persistence effect (part_000:131-153) -/

/-- part_000:138-140: `delete msg.imageUrl` on the serialized copy. -/
def stripMessageImage (m : Message) : Message :=
  { m with imageUrl := none }

/-- Strip every message's image payload from one conversation. -/
def stripConversationImages (c : Conversation) : Conversation :=
  { c with messages := c.messages.map stripMessageImage }

/-- part_000:135-142: the conversation map serialized to browser storage —
a deep copy of the in-memory map with every `imageUrl` deleted. -/
def conversationsToSave (cs : List Conversation) : List Conversation :=
  cs.map stripConversationImages

/-- The persistence effect: what is written to storage, paired with the
in-memory store it leaves behind (the copy is deep, so the store is
untouched). -/
def persistEffect (s : Store) : List Conversation × Store :=
  (conversationsToSave s.conversations, s)

/-! ## Title generator: `getChatTitle` (part_000:279-293) -/

/-- part_000:288: strip `"` and `'` characters from the remote response. -/
def stripQuoteChars (s : String) : String :=
  ⟨s.data.filter (fun c => !(c = '"') && !(c = '\''))⟩

/-- The `getChatTitle` (part_000:279-293): default to `"New Chat"` when the
credential is absent, when the remote call throws, or when the cleaned
response text is empty. -/
def getChatTitle (apiKey : Bool) (remote : Except String String) : String :=
  if apiKey = false then "New Chat"
  else
    match remote with
    | Except.error _ => "New Chat"
    | Except.ok t =>
      let cleaned := jsTrim (stripQuoteChars t)
      if cleaned = "" then "New Chat" else cleaned

/-! ## Attachment validation: `handleFileChange` (part_000:649-677) -/

/-- The observable fields of a selected `File`. -/
structure JsFile where
  type : String
  size : Nat
deriving DecidableEq, Repr

/-- The `MAX_SIZE_MB * 1024 * 1024` (part_000:659-660). -/
def MAX_SIZE_BYTES : Nat := 10 * 1024 * 1024

/-- Resulting state of a `handleFileChange` invocation: the current
conversation's messages and the image staging slot. -/
structure FileChangeResult where
  messages : List Message
  imageFile : Option JsFile
  imagePreview : Option String
deriving DecidableEq, Repr

/-- The `handleFileChange` (part_000:649-677) on the current conversation's
messages and the staging slot (`stagedFile`, `stagedPreview`); `reader` is
the `FileReader` outcome for a passing file (`ok` carries the preview data
URL). -/
def handleFileChange (selected : Option JsFile) (reader : Except Unit String)
    (msgs : List Message) (stagedFile : Option JsFile) (stagedPreview : Option String) :
    FileChangeResult :=
  match selected with
  | none => ⟨msgs, stagedFile, stagedPreview⟩
  | some file =>
    if !(jsStartsWith file.type "image/") then
      ⟨msgs ++ [⟨MessageRole.error,
          "Invalid file type. Please select a valid image file (e.g., JPEG, PNG, WEBP).",
          none⟩],
        stagedFile, stagedPreview⟩
    else if MAX_SIZE_BYTES < file.size then
      ⟨msgs ++ [⟨MessageRole.error,
          "File is too large. Please select an image under 10MB.", none⟩],
        stagedFile, stagedPreview⟩
    else
      match reader with
      | Except.ok dataUrl => ⟨msgs, some file, some dataUrl⟩
      | Except.error _ =>
        ⟨msgs ++ [⟨MessageRole.error,
            "Could not read the selected image. It might be corrupted. Please try another one.",
            none⟩],
          none, none⟩

/-! ## Basic string facts -/

theorem str_ext : ∀ {s t : String}, s.data = t.data → s = t
  | ⟨_⟩, ⟨_⟩, rfl => rfl

theorem str_data_append (s t : String) : (s ++ t).data = s.data ++ t.data := by
  cases s; cases t; rfl

/-- A string extended on the right by a nonempty string cannot equal a
string whose character data has a different last character. -/
theorem append_ne_of_last (s m t : String) (c : Char) (cs : List Char)
    (hm : m.data.reverse = c :: cs) (ht : t.data.reverse.head? ≠ some c) :
    s ++ m ≠ t := by
  intro h
  apply ht
  have hd : t.data = s.data ++ m.data := by
    rw [← h, str_data_append]
  rw [hd, List.reverse_append, hm]
  rfl

/-- A string with a known first character cannot equal a string whose
character data starts differently, whatever is appended after it. -/
theorem append_ne_of_head (a s t : String) (c : Char) (cs : List Char)
    (ha : a.data = c :: cs) (ht : t.data.head? ≠ some c) :
    a ++ s ≠ t := by
  intro h
  apply ht
  rw [← h, str_data_append, ha]
  rfl

theorem append_glyph_ne_sentinel (s : String) :
    s ++ cursorGlyph ≠ LOADING_INDICATOR_CONTENT := by
  apply append_ne_of_last s cursorGlyph LOADING_INDICATOR_CONTENT '▋' []
  · rfl
  · decide

theorem jsEndsWith_append_glyph (s : String) :
    jsEndsWith (s ++ cursorGlyph) cursorGlyph = true := by
  unfold jsEndsWith List.isSuffixOf
  rw [str_data_append]
  show (List.reverse ['▋']).isPrefixOf (s.data ++ ['▋']).reverse = true
  rw [List.reverse_append]
  simp [List.isPrefixOf]

theorem jsDropLast1_append_glyph (s : String) :
    jsDropLast1 (s ++ cursorGlyph) = s := by
  unfold jsDropLast1
  apply str_ext
  rw [str_data_append]
  show (s.data ++ ['▋']).dropLast = s.data
  exact List.dropLast_concat

/-- Applying a chunk to the untouched sentinel yields the chunk (plus the
cursor glyph when not done). -/
theorem applyContent_sentinel (ch : String) (d : Bool) :
    applyContent LOADING_INDICATOR_CONTENT ch d =
      ch ++ (if d then "" else cursorGlyph) := by
  unfold applyContent
  rw [if_pos rfl]
  rfl

/-- Applying a chunk to glyph-terminated content strips exactly the cursor
glyph before appending. -/
theorem applyContent_glyph (s ch : String) (d : Bool) :
    applyContent (s ++ cursorGlyph) ch d =
      s ++ ch ++ (if d then "" else cursorGlyph) := by
  unfold applyContent
  rw [if_neg (append_glyph_ne_sentinel s), if_pos (jsEndsWith_append_glyph s),
    jsDropLast1_append_glyph]

/-- One `updateLastMessage` step on a list ending in a model message. -/
theorem updateLastMessage_concat (pre : List Message) (c : String)
    (img : Option String) (ch : String) (d : Bool) :
    updateLastMessage (pre ++ [⟨MessageRole.model, c, img⟩]) ch d =
      pre ++ [⟨MessageRole.model, applyContent c ch d, img⟩] := by
  unfold updateLastMessage
  rw [List.getLast?_concat]
  simp only [List.dropLast_concat]
  rfl

/-- Chunk application only rewrites the trailing model message's content,
through `foldContent`. -/
theorem applyChunks_concat (chunks : List String) (pre : List Message)
    (c : String) (img : Option String) :
    applyChunks (pre ++ [⟨MessageRole.model, c, img⟩]) chunks =
      pre ++ [⟨MessageRole.model, foldContent c chunks, img⟩] := by
  induction chunks generalizing c with
  | nil => rfl
  | cons ch rest ih =>
    show applyChunks (updateLastMessage (pre ++ [⟨MessageRole.model, c, img⟩]) ch false) rest
        = pre ++ [⟨MessageRole.model, foldContent c (ch :: rest), img⟩]
    rw [updateLastMessage_concat]
    exact ih (applyContent c ch false)

/-- Streaming over glyph-terminated content accumulates exactly the chunk
concatenation. -/
theorem foldContent_glyph (chunks : List String) (s : String) :
    foldContent (s ++ cursorGlyph) chunks = (s ++ concatChunks chunks) ++ cursorGlyph := by
  induction chunks generalizing s with
  | nil =>
    show s ++ cursorGlyph = (s ++ concatChunks []) ++ cursorGlyph
    rw [show concatChunks [] = "" from rfl, String.append_empty]
  | cons c rest ih =>
    show foldContent (applyContent (s ++ cursorGlyph) c false) rest
        = (s ++ concatChunks (c :: rest)) ++ cursorGlyph
    rw [applyContent_glyph]
    show foldContent ((s ++ c) ++ cursorGlyph) rest = _
    rw [ih (s ++ c)]
    rw [show concatChunks (c :: rest) = c ++ concatChunks rest from rfl]
    simp only [String.append_assoc]

/-- Finalizing (any `isDone = true` application) after a chunk sequence that
started at the sentinel yields the concatenation, with no cursor glyph. -/
theorem finalize_foldContent (chunks : List String) (m : String) :
    applyContent (foldContent LOADING_INDICATOR_CONTENT chunks) m true =
      concatChunks chunks ++ m := by
  cases chunks with
  | nil =>
    rw [show foldContent LOADING_INDICATOR_CONTENT [] = LOADING_INDICATOR_CONTENT from rfl,
      applyContent_sentinel]
    rw [if_pos rfl, String.append_empty]
    rfl
  | cons c rest =>
    have h1 : foldContent LOADING_INDICATOR_CONTENT (c :: rest)
        = foldContent (c ++ cursorGlyph) rest := by
      show foldContent (applyContent LOADING_INDICATOR_CONTENT c false) rest = _
      rw [applyContent_sentinel]
      rfl
    rw [h1, foldContent_glyph, applyContent_glyph, if_pos rfl, String.append_empty]
    rfl

/-! ## Shape lemmas for the turn orchestrator -/

theorem dropLast_append_two {α : Type} (l : List α) (a b : α) :
    (l ++ [a, b]).dropLast = l ++ [a] := by
  rw [show l ++ [a, b] = (l ++ [a]) ++ [b] by simp, List.dropLast_concat]

/-- Finalizing after the applied chunk prefix of a turn: the conversation
keeps its prefix and user message, and the placeholder slot holds the
concatenation of applied chunks followed by the final chunk. -/
theorem turn_finalize_shape (prior : List Message) (u : Message)
    (applied : List String) (m : String) :
    updateLastMessage
        (applyChunks (prior ++ [u, ⟨MessageRole.model, LOADING_INDICATOR_CONTENT, none⟩])
          applied) m true
      = prior ++ [u, ⟨MessageRole.model, concatChunks applied ++ m, none⟩] := by
  rw [show prior ++ [u, ⟨MessageRole.model, LOADING_INDICATOR_CONTENT, none⟩]
      = (prior ++ [u]) ++ [⟨MessageRole.model, LOADING_INDICATOR_CONTENT, none⟩] by simp]
  rw [applyChunks_concat, updateLastMessage_concat, finalize_foldContent]
  simp

/-- The messages produced by the loop are always the input with some prefix
of the chunks applied; on normal completion the whole chunk list was
applied. -/
theorem streamLoop_shape (env : TurnEnv) (chunks : List String) :
    ∀ (k : Nat) (msgs : List Message) (acc : String),
      ∃ t, t ≤ chunks.length ∧
        (streamLoop env chunks k msgs acc).1 = applyChunks msgs (chunks.take t) ∧
        ((streamLoop env chunks k msgs acc).2.2 = StreamOutcome.completed →
          t = chunks.length) := by
  induction chunks with
  | nil =>
    intro k msgs acc
    refine ⟨0, Nat.le_refl 0, ?_, fun _ => rfl⟩
    rw [streamLoop]
    cases h : errNow env.streamErr k <;> rfl
  | cons c rest ih =>
    intro k msgs acc
    rw [streamLoop]
    cases h : errNow env.streamErr k with
    | some e =>
      exact ⟨0, Nat.zero_le _, rfl, fun hc => StreamOutcome.noConfusion hc⟩
    | none =>
      by_cases hf : flagSet env.stopAt k = true
      · rw [if_pos hf]
        exact ⟨0, Nat.zero_le _, rfl, fun hc => StreamOutcome.noConfusion hc⟩
      · rw [if_neg hf]
        obtain ⟨t, ht, h1, h2⟩ := ih (k + 1) (updateLastMessage msgs c false) (acc ++ c)
        refine ⟨t + 1, Nat.succ_le_succ ht, h1, fun hc => ?_⟩
        rw [h2 hc]
        rfl

/-- With no stream exception and the cancellation flag set at pull `k`, the
loop applies exactly the first `k - j` chunks, completing normally only
when the chunks run out first. -/
theorem streamLoop_stop (env : TurnEnv) (k : Nat)
    (herr : env.streamErr = none) (hstop : env.stopAt = some k) :
    ∀ (chunks : List String) (j : Nat) (msgs : List Message) (acc : String), j ≤ k →
      (streamLoop env chunks j msgs acc).1 = applyChunks msgs (chunks.take (k - j)) ∧
      (streamLoop env chunks j msgs acc).2.2 =
        (if chunks.length ≤ k - j then StreamOutcome.completed
         else StreamOutcome.stoppedBreak) := by
  intro chunks
  induction chunks with
  | nil =>
    intro j msgs acc _
    rw [streamLoop, herr]
    simp only [errNow]
    exact ⟨by simp [applyChunks], by simp⟩
  | cons c rest ih =>
    intro j msgs acc hj
    rw [streamLoop, herr]
    simp only [errNow]
    by_cases hjk : k ≤ j
    · have hf : flagSet env.stopAt j = true := by
        rw [hstop]; exact decide_eq_true hjk
      rw [if_pos hf]
      have hz : k - j = 0 := Nat.sub_eq_zero_of_le hjk
      rw [hz]
      exact ⟨rfl, by rw [if_neg (by simp)]⟩
    · have hjk' : j < k := Nat.lt_of_not_le hjk
      have hf : flagSet env.stopAt j = false := by
        rw [hstop]
        exact decide_eq_false hjk
      rw [if_neg (by simp [hf])]
      obtain ⟨h1, h2⟩ := ih (j + 1) (updateLastMessage msgs c false) (acc ++ c) hjk'
      have hsub : k - j = (k - (j + 1)) + 1 := by omega
      constructor
      · rw [hsub, List.take_succ_cons]
        exact h1
      · rw [h2]
        exact if_congr (by simp only [List.length_cons, hsub]; omega) rfl rfl

/-- The `streamBranch` always records the history it was handed. -/
theorem streamBranch_history (env : TurnEnv) (mc : String) (hi tr : Bool)
    (hist : List HistoryEntry) (msgs1 : List Message) :
    (streamBranch env mc hi tr hist msgs1).history = some hist := by
  unfold streamBranch
  rcases hsl : streamLoop env env.chunks 0 msgs1 "" with ⟨msgs2, acc2, oc⟩
  cases oc with
  | threw e => rfl
  | stoppedBreak => rfl
  | completed =>
    dsimp only
    split <;> rfl

/-- The `streamBranch` leaves `isLoading` false and passes the title flag
through. -/
theorem streamBranch_flags (env : TurnEnv) (mc : String) (hi tr : Bool)
    (hist : List HistoryEntry) (msgs1 : List Message) :
    (streamBranch env mc hi tr hist msgs1).isLoading = false ∧
    (streamBranch env mc hi tr hist msgs1).titleRequested = tr := by
  unfold streamBranch
  rcases hsl : streamLoop env env.chunks 0 msgs1 "" with ⟨msgs2, acc2, oc⟩
  cases oc with
  | threw e => exact ⟨rfl, rfl⟩
  | stoppedBreak => exact ⟨rfl, rfl⟩
  | completed =>
    dsimp only
    refine ⟨?_, ?_⟩ <;> (split <;> rfl)

/-- Every friendly catch message differs from the loading sentinel (each
variant starts with `S` or `A`, the sentinel with `_`). -/
theorem friendlyMessage_ne_sentinel (mc : String) (hi : Bool) (e : String) :
    friendlyMessage mc hi e ≠ LOADING_INDICATOR_CONTENT := by
  unfold friendlyMessage
  split
  · rw [String.append_assoc]
    exact append_ne_of_head _ _ _ 'S' _ rfl (by decide)
  · split
    · rw [String.append_assoc]
      exact append_ne_of_head _ _ _ 'S' _ rfl (by decide)
    · exact append_ne_of_head _ _ _ 'A' _ rfl (by decide)

/-- Anything ending in the stop marker differs from the loading sentinel
(last characters differ). -/
theorem append_stopMarker_ne_sentinel (s : String) :
    s ++ stopMarker ≠ LOADING_INDICATOR_CONTENT := by
  exact append_ne_of_last s stopMarker LOADING_INDICATOR_CONTENT '—' _ rfl (by decide)

/-- The last-message content of a list ending in a known message. -/
theorem lastContent_ne (l : List Message) (m : Message)
    (h : m.content ≠ LOADING_INDICATOR_CONTENT) :
    ((l ++ [m]).getLast?).map Message.content ≠ some LOADING_INDICATOR_CONTENT := by
  rw [List.getLast?_concat]
  intro hc
  exact h (Option.some.inj hc)

/-- The catch block applied right after the user message and placeholder
were pushed (or after streaming mutated the placeholder slot in place)
replaces the placeholder slot by the friendly error message. -/
theorem catchTurn_shape (prior : List Message) (u p : Message) (mc : String)
    (hi tr : Bool) (hist : Option (List HistoryEntry)) (e : String) :
    (catchTurn (prior ++ [u, p]) mc hi tr hist e).messages
      = prior ++ [u, ⟨MessageRole.error, friendlyMessage mc hi e, none⟩] := by
  unfold catchTurn
  rw [dropLast_append_two]
  simp

/-- Membership in a descending insertion step. -/
theorem mem_insertDesc {a x : Nat} : ∀ {l : List Nat}, a ∈ insertDesc x l ↔ a = x ∨ a ∈ l := by
  intro l
  induction l with
  | nil => simp [insertDesc]
  | cons y ys ih =>
    unfold insertDesc
    by_cases h : y ≤ x
    · rw [if_pos h]
      simp [List.mem_cons]
    · rw [if_neg h]
      simp only [List.mem_cons, ih]
      tauto

/-- The head of the descending sort is a maximal element. -/
theorem sortIdsDesc_head_max : ∀ (l : List Nat), l ≠ [] →
    ∃ h t, sortIdsDesc l = h :: t ∧ h ∈ l ∧ ∀ a ∈ l, a ≤ h := by
  intro l
  induction l with
  | nil => exact fun h => absurd rfl h
  | cons x ys ih =>
    intro _
    by_cases hys : ys = []
    · subst hys
      exact ⟨x, [], rfl, by simp, by simp⟩
    · obtain ⟨h, t, hsort, hmem, hmax⟩ := ih hys
      have hx : sortIdsDesc (x :: ys) = insertDesc x (sortIdsDesc ys) := rfl
      rw [hx, hsort]
      unfold insertDesc
      by_cases hle : h ≤ x
      · rw [if_pos hle]
        refine ⟨x, h :: t, rfl, by simp, ?_⟩
        intro a ha
        rcases List.mem_cons.mp ha with rfl | ha'
        · exact Nat.le_refl a
        · exact Nat.le_trans (hmax a ha') hle
      · rw [if_neg hle]
        refine ⟨h, insertDesc x t, rfl, List.mem_cons_of_mem x hmem, ?_⟩
        intro a ha
        rcases List.mem_cons.mp ha with rfl | ha'
        · exact Nat.le_of_not_le hle
        · exact hmax a ha'

/-- Pushing a user message and the placeholder, then filtering and
dropping the two most recent entries, recovers exactly the filtered
pre-turn history. -/
theorem buildChatHistory_append_two (l : List Message) (a b : Message)
    (ha : keepInHistory a = true) (hb : keepInHistory b = true) :
    buildChatHistory (l ++ [a, b]) = (l.filter keepInHistory).map toHistoryEntry := by
  unfold buildChatHistory
  have hfa : List.filter keepInHistory [a] = [a] := by simp [List.filter_cons, ha]
  have hfb : List.filter keepInHistory [b] = [b] := by simp [List.filter_cons, hb]
  rw [show l ++ [a, b] = (l ++ [a]) ++ [b] by simp]
  rw [List.filter_append, List.filter_append, hfa, hfb]
  rw [show (List.filter keepInHistory l ++ [a]) ++ [b]
      = ((List.filter keepInHistory l ++ [a]) ++ [b] : List Message) from rfl]
  rw [List.dropLast_concat, List.dropLast_concat]

/-- A turn that ends in the catch block satisfies the turn boundary
contract: `isLoading` cleared, the placeholder slot replaced by the
friendly error message, and the last message not the sentinel. -/
theorem catchTurn_boundary (prior : List Message) (u p : Message) (mc : String)
    (hi tr : Bool) (hist : Option (List HistoryEntry)) (e0 : String) :
    (catchTurn (prior ++ [u, p]) mc hi tr hist e0).isLoading = false ∧
    (∀ e, (catchTurn (prior ++ [u, p]) mc hi tr hist e0).caught = some e →
      (catchTurn (prior ++ [u, p]) mc hi tr hist e0).messages
        = prior ++ [u, ⟨MessageRole.error, friendlyMessage mc hi e, none⟩]) ∧
    ((catchTurn (prior ++ [u, p]) mc hi tr hist e0).messages.getLast?).map Message.content
      ≠ some LOADING_INDICATOR_CONTENT := by
  refine ⟨rfl, ?_, ?_⟩
  · intro e he
    have he' : some e0 = some e := he
    cases Option.some.inj he'
    exact catchTurn_shape prior u p mc hi tr hist e0
  · unfold catchTurn
    exact lastContent_ne _ _ (friendlyMessage_ne_sentinel mc hi e0)

/-- Claim **C1**: For every sequence of chunk applications to the last model
message (each via `updateLastMessage` with `isDone = false`) followed by a
finalize (`updateLastMessage` with `isDone = true`), starting from the
loading-placeholder sentinel, the resulting message content equals the
concatenation of all applied chunks (the finalize chunk included) with no
residual cursor glyph, no duplicated and no lost glyph characters,
regardless of chunk boundaries — including chunks that contain or end with
the glyph character. -/
theorem stream_assembly_concat (chunks : List String) (finalChunk : String)
    (pre : List Message) (img : Option String) :
    updateLastMessage
        (applyChunks (pre ++ [⟨MessageRole.model, LOADING_INDICATOR_CONTENT, img⟩]) chunks)
        finalChunk true
      = pre ++ [⟨MessageRole.model, concatChunks chunks ++ finalChunk, img⟩] := by
  rw [applyChunks_concat, updateLastMessage_concat, finalize_foldContent]

/-- Claim **C7**: Deleting a non-active conversation leaves the active
conversation id unchanged and every conversation other than the deleted id
untouched (the store afterwards is exactly the filter of the store before,
and keeps every other conversation). -/
theorem deleteChat_nonactive_frame (s : Store) (id now : Nat)
    (h : s.currentChatId ≠ some id) :
    (deleteChat s id now).currentChatId = s.currentChatId ∧
    (deleteChat s id now).conversations = s.conversations.filter (fun c => !(c.id = id)) ∧
    ∀ c ∈ s.conversations, c.id ≠ id → c ∈ (deleteChat s id now).conversations := by
  unfold deleteChat
  rw [if_neg h]
  refine ⟨rfl, rfl, ?_⟩
  intro c hc hne
  simp [List.mem_filter, hc, hne]

/-- Claim **C7 witness**: a concrete non-active delete. -/
theorem deleteChat_nonactive_frame_witness :
    (deleteChat ⟨[⟨1, "A", []⟩, ⟨5, "B", []⟩], some 5⟩ 1 99).currentChatId = some 5 ∧
    (deleteChat ⟨[⟨1, "A", []⟩, ⟨5, "B", []⟩], some 5⟩ 1 99).conversations
      = ([⟨1, "A", []⟩, ⟨5, "B", []⟩] : List Conversation).filter (fun c => !(c.id = 1)) ∧
    ∀ c ∈ ([⟨1, "A", []⟩, ⟨5, "B", []⟩] : List Conversation), c.id ≠ 1 →
      c ∈ (deleteChat ⟨[⟨1, "A", []⟩, ⟨5, "B", []⟩], some 5⟩ 1 99).conversations :=
  deleteChat_nonactive_frame ⟨[⟨1, "A", []⟩, ⟨5, "B", []⟩], some 5⟩ 1 99 (by decide)

/-- Claim **C3**: Deleting the active conversation selects the most recently
created remaining conversation (an id-maximal one) as the new active
conversation; when none remain it synthesizes exactly one fresh empty
`"New Chat"` conversation and makes it active; the store is never left
empty. -/
theorem deleteChat_active_successor (s : Store) (id now : Nat)
    (hact : s.currentChatId = some id) :
    (deleteChat s id now).conversations ≠ [] ∧
    (s.conversations.filter (fun c => !(c.id = id)) = [] →
      (deleteChat s id now).conversations = [⟨now, "New Chat", []⟩] ∧
      (deleteChat s id now).currentChatId = some now) ∧
    (s.conversations.filter (fun c => !(c.id = id)) ≠ [] →
      (deleteChat s id now).conversations = s.conversations.filter (fun c => !(c.id = id)) ∧
      ∃ i, (deleteChat s id now).currentChatId = some i ∧
        i ∈ (s.conversations.filter (fun c => !(c.id = id))).map Conversation.id ∧
        ∀ j ∈ (s.conversations.filter (fun c => !(c.id = id))).map Conversation.id, j ≤ i) := by
  unfold deleteChat
  rw [if_pos hact]
  by_cases hrem : s.conversations.filter (fun c => !(c.id = id)) = []
  · have hs : sortIdsDesc ((s.conversations.filter (fun c => !(c.id = id))).map Conversation.id)
        = [] := by
      rw [hrem]; rfl
    rw [hs]
    refine ⟨?_, fun _ => ⟨?_, rfl⟩, fun hne => absurd hrem hne⟩
    · rw [hrem]
      simp
    · rw [hrem]
      simp
  · have hmapne : (s.conversations.filter (fun c => !(c.id = id))).map Conversation.id ≠ [] := by
      simpa using hrem
    obtain ⟨i, t, hsort, hmem, hmax⟩ := sortIdsDesc_head_max _ hmapne
    rw [hsort]
    exact ⟨hrem, fun hc => absurd hc hrem, fun _ => ⟨rfl, i, rfl, hmem, hmax⟩⟩

/-- Claim **C3 witness**: deleting the active conversation of a concrete store. -/
theorem deleteChat_active_successor_witness :
    (deleteChat ⟨[⟨1, "A", []⟩, ⟨5, "B", []⟩, ⟨3, "C", []⟩], some 5⟩ 5 99).conversations ≠ [] ∧
    (([⟨1, "A", []⟩, ⟨5, "B", []⟩, ⟨3, "C", []⟩] : List Conversation).filter
        (fun c => !(c.id = 5)) = [] →
      (deleteChat ⟨[⟨1, "A", []⟩, ⟨5, "B", []⟩, ⟨3, "C", []⟩], some 5⟩ 5 99).conversations
        = [⟨99, "New Chat", []⟩] ∧
      (deleteChat ⟨[⟨1, "A", []⟩, ⟨5, "B", []⟩, ⟨3, "C", []⟩], some 5⟩ 5 99).currentChatId
        = some 99) ∧
    (([⟨1, "A", []⟩, ⟨5, "B", []⟩, ⟨3, "C", []⟩] : List Conversation).filter
        (fun c => !(c.id = 5)) ≠ [] →
      (deleteChat ⟨[⟨1, "A", []⟩, ⟨5, "B", []⟩, ⟨3, "C", []⟩], some 5⟩ 5 99).conversations
        = ([⟨1, "A", []⟩, ⟨5, "B", []⟩, ⟨3, "C", []⟩] : List Conversation).filter
            (fun c => !(c.id = 5)) ∧
      ∃ i, (deleteChat ⟨[⟨1, "A", []⟩, ⟨5, "B", []⟩, ⟨3, "C", []⟩], some 5⟩ 5 99).currentChatId
          = some i ∧
        i ∈ (([⟨1, "A", []⟩, ⟨5, "B", []⟩, ⟨3, "C", []⟩] : List Conversation).filter
            (fun c => !(c.id = 5))).map Conversation.id ∧
        ∀ j ∈ (([⟨1, "A", []⟩, ⟨5, "B", []⟩, ⟨3, "C", []⟩] : List Conversation).filter
            (fun c => !(c.id = 5))).map Conversation.id, j ≤ i) :=
  deleteChat_active_successor ⟨[⟨1, "A", []⟩, ⟨5, "B", []⟩, ⟨3, "C", []⟩], some 5⟩ 5 99 rfl

/-- Claim **C8**: The conversation map written to browser storage equals the
in-memory map with every message's image payload reference removed — ids,
titles, message order, roles and contents are preserved and every persisted
message carries no image — while the in-memory store itself is left
unchanged by the persistence effect. -/
theorem persist_strips_images (s : Store) :
    (persistEffect s).2 = s ∧
    (persistEffect s).1.map Conversation.id = s.conversations.map Conversation.id ∧
    (persistEffect s).1.map Conversation.title = s.conversations.map Conversation.title ∧
    (persistEffect s).1.map (fun c => c.messages.map Message.role)
      = s.conversations.map (fun c => c.messages.map Message.role) ∧
    (persistEffect s).1.map (fun c => c.messages.map Message.content)
      = s.conversations.map (fun c => c.messages.map Message.content) ∧
    ∀ c ∈ (persistEffect s).1, ∀ m ∈ c.messages, m.imageUrl = none := by
  refine ⟨rfl, ?_, ?_, ?_, ?_, ?_⟩
  · simp [persistEffect, conversationsToSave, stripConversationImages, List.map_map,
      Function.comp_def]
  · simp [persistEffect, conversationsToSave, stripConversationImages, List.map_map,
      Function.comp_def]
  · simp [persistEffect, conversationsToSave, stripConversationImages, stripMessageImage,
      List.map_map, Function.comp_def]
  · simp [persistEffect, conversationsToSave, stripConversationImages, stripMessageImage,
      List.map_map, Function.comp_def]
  · intro c hc m hm
    simp only [persistEffect, conversationsToSave, List.mem_map] at hc
    obtain ⟨c0, _, rfl⟩ := hc
    simp only [stripConversationImages, List.mem_map] at hm
    obtain ⟨m0, _, rfl⟩ := hm
    rfl

/-- Claim **C8 witness**: the persistence effect on a concrete store with an
image-bearing message. -/
theorem persist_strips_images_witness :
    (persistEffect ⟨[⟨1, "A", [⟨MessageRole.model, "pic", some "data:x"⟩]⟩], some 1⟩).2
      = ⟨[⟨1, "A", [⟨MessageRole.model, "pic", some "data:x"⟩]⟩], some 1⟩ ∧
    ∀ c ∈ (persistEffect ⟨[⟨1, "A", [⟨MessageRole.model, "pic", some "data:x"⟩]⟩], some 1⟩).1,
      ∀ m ∈ c.messages, m.imageUrl = none :=
  ⟨(persist_strips_images ⟨[⟨1, "A", [⟨MessageRole.model, "pic", some "data:x"⟩]⟩], some 1⟩).1,
    (persist_strips_images ⟨[⟨1, "A", [⟨MessageRole.model, "pic", some "data:x"⟩]⟩],
      some 1⟩).2.2.2.2.2⟩

/-- Claim **C10 counterexample**: with a valid image already staged, selecting a
file of invalid MIME type appends the error message but leaves the
previously staged image in the staging slot — the slot is *not* empty, so
the claim "leaves the image staging slot empty" fails as stated. -/
theorem handleFileChange_staging_counterexample :
    (handleFileChange (some ⟨"text/plain", 5⟩) (Except.ok "d") []
        (some ⟨"image/png", 3⟩) (some "p")).imageFile ≠ none ∧
    (handleFileChange (some ⟨"text/plain", 5⟩) (Except.ok "d") []
        (some ⟨"image/png", 3⟩) (some "p")).messages
      = [⟨MessageRole.error,
          "Invalid file type. Please select a valid image file (e.g., JPEG, PNG, WEBP).",
          none⟩] := by
  exact ⟨fun h => Option.noConfusion h, rfl⟩

/-- Claim **C10 (amended)**: For every file whose MIME type does not start with
`"image/"` or whose size exceeds 10 MB, `handleFileChange` appends an
error-role message to the current conversation and leaves the image
staging slot *unchanged* — in particular the invalid or oversized
attachment is never staged, and a previously empty slot stays empty. -/
theorem handleFileChange_invalid_never_staged (file : JsFile) (reader : Except Unit String)
    (msgs : List Message) (stagedFile : Option JsFile) (stagedPreview : Option String)
    (hbad : jsStartsWith file.type "image/" = false ∨ MAX_SIZE_BYTES < file.size) :
    (handleFileChange (some file) reader msgs stagedFile stagedPreview).imageFile
      = stagedFile ∧
    (handleFileChange (some file) reader msgs stagedFile stagedPreview).imagePreview
      = stagedPreview ∧
    ∃ em, (handleFileChange (some file) reader msgs stagedFile stagedPreview).messages
      = msgs ++ [⟨MessageRole.error, em, none⟩] := by
  unfold handleFileChange
  dsimp only
  by_cases ht : jsStartsWith file.type "image/" = false
  · rw [if_pos (by simp [ht])]
    exact ⟨rfl, rfl, _, rfl⟩
  · have ht' : jsStartsWith file.type "image/" = true := by
      cases hjs : jsStartsWith file.type "image/"
      · exact absurd hjs ht
      · rfl
    have hsz : MAX_SIZE_BYTES < file.size := by
      rcases hbad with hb | hb
      · exact absurd hb ht
      · exact hb
    rw [if_neg (by simp [ht']), if_pos hsz]
    exact ⟨rfl, rfl, _, rfl⟩

/-- Claim **C10 witness**: a concrete oversized image file is rejected with an
error message and the (empty) staging slot stays empty. -/
theorem handleFileChange_invalid_never_staged_witness :
    (handleFileChange (some ⟨"image/png", 11534336⟩) (Except.ok "d") [] none none).imageFile
      = none ∧
    (handleFileChange (some ⟨"image/png", 11534336⟩) (Except.ok "d") [] none none).imagePreview
      = none ∧
    ∃ em, (handleFileChange (some ⟨"image/png", 11534336⟩) (Except.ok "d")
        [] none none).messages = [] ++ [⟨MessageRole.error, em, none⟩] :=
  handleFileChange_invalid_never_staged ⟨"image/png", 11534336⟩ (Except.ok "d") [] none none
    (Or.inr (by decide))

/-- Claim **C9**: Title generation is requested only on the first user turn of a
conversation (a turn with non-empty prior messages never requests it), and
`getChatTitle` degrades to the fixed default `"New Chat"` both when the
credential is absent and when the remote call throws — it is a total
function, so it cannot fail the turn. -/
theorem titleGen_gating_and_fallback :
    (∀ (env : TurnEnv) (content : String) (imageFile imagePreview : Option String)
        (prior : List Message), prior ≠ [] →
      (submitTurn env content imageFile imagePreview prior).titleRequested = false) ∧
    (∀ remote, getChatTitle false remote = "New Chat") ∧
    (∀ e, getChatTitle true (Except.error e) = "New Chat") := by
  refine ⟨?_, fun remote => rfl, fun e => rfl⟩
  intro env content imageFile imagePreview prior hne
  have hempty : prior.isEmpty = false := by
    cases prior with
    | nil => exact absurd rfl hne
    | cons a l => rfl
  unfold submitTurn
  split
  · rfl
  · simp only [hempty, Bool.false_and]
    split
    · rfl
    · split
      · split
        · rfl
        · split <;> rfl
      · split
        · rfl
        · split <;> rfl
      · exact (streamBranch_flags _ _ _ _ _ _).2

/-- Claim **C9 witness**: a second-turn submission does not request a title, and
the two degradation cases on concrete inputs. -/
theorem titleGen_gating_and_fallback_witness :
    (submitTurn ⟨true, Except.error "x", Except.error "x", Except.error "x", ["Hi"], none, none⟩
        "hello" none none [⟨MessageRole.user, "a", none⟩]).titleRequested = false ∧
    getChatTitle false (Except.ok "Trip Plan") = "New Chat" ∧
    getChatTitle true (Except.error "boom") = "New Chat" :=
  ⟨titleGen_gating_and_fallback.1
      ⟨true, Except.error "x", Except.error "x", Except.error "x", ["Hi"], none, none⟩
      "hello" none none [⟨MessageRole.user, "a", none⟩] (by decide),
    titleGen_gating_and_fallback.2.1 (Except.ok "Trip Plan"),
    titleGen_gating_and_fallback.2.2 "boom"⟩

/-- Claim **C5**: A turn with an attached image never takes the plain-text
streaming path (its dispatch is never `textStream`, and the turn records no
streaming history), even when non-empty text is present; and the three
dispatch paths are mutually exclusive, selected exactly by the lexical
`"/generate "` prefix on the trimmed input and by attachment presence. -/
theorem attachment_dispatch_exclusive (env : TurnEnv) (content f : String)
    (imagePreview : Option String) (prior : List Message) :
    dispatchPath content true ≠ DispatchPath.textStream ∧
    (submitTurn env content (some f) imagePreview prior).history = none ∧
    ∀ (mc : String) (hi : Bool),
      (dispatchPath mc hi = DispatchPath.imageGen ↔
        jsStartsWith (jsTrim mc) "/generate " = true) ∧
      (dispatchPath mc hi = DispatchPath.imageUnderstand ↔
        (jsStartsWith (jsTrim mc) "/generate " = false ∧ hi = true)) ∧
      (dispatchPath mc hi = DispatchPath.textStream ↔
        (jsStartsWith (jsTrim mc) "/generate " = false ∧ hi = false)) := by
  have hchar : ∀ (mc : String) (hi : Bool),
      (dispatchPath mc hi = DispatchPath.imageGen ↔
        jsStartsWith (jsTrim mc) "/generate " = true) ∧
      (dispatchPath mc hi = DispatchPath.imageUnderstand ↔
        (jsStartsWith (jsTrim mc) "/generate " = false ∧ hi = true)) ∧
      (dispatchPath mc hi = DispatchPath.textStream ↔
        (jsStartsWith (jsTrim mc) "/generate " = false ∧ hi = false)) := by
    intro mc hi
    cases hb : jsStartsWith (jsTrim mc) "/generate " <;>
      cases hi <;> simp [dispatchPath, hb]
  have hne : dispatchPath content true ≠ DispatchPath.textStream := by
    intro hc
    exact absurd ((hchar content true).2.2.mp hc).2 (by simp)
  refine ⟨hne, ?_, hchar⟩
  unfold submitTurn
  rw [if_neg (fun hand => Option.noConfusion hand.2)]
  by_cases hA : env.apiKey = false
  · rw [if_pos hA]
    rfl
  · rw [if_neg hA]
    simp only [Option.isSome_some]
    cases hd : dispatchPath content true with
    | imageGen =>
      dsimp only
      split
      · rfl
      · split <;> rfl
    | imageUnderstand =>
      dsimp only
      split
      · rfl
      · split <;> rfl
    | textStream => exact absurd hd hne

/-- Claim **C5 witness**: a concrete turn with both text and an attachment takes
the understanding path and records no streaming history. -/
theorem attachment_dispatch_exclusive_witness :
    (submitTurn ⟨true, Except.error "x", Except.error "x",
        Except.ok ("a cat", none), ["Hi"], none, none⟩
      "describe this" (some "file") (some "preview") []).history = none :=
  (attachment_dispatch_exclusive
    ⟨true, Except.error "x", Except.error "x", Except.ok ("a cat", none), ["Hi"], none, none⟩
    "describe this" "file" (some "preview") []).2.1

/-- Claim **C6**: For every plain-text streaming turn, the history built for the
remote call is exactly the filtered pre-turn message list: the two most
recent messages of the conversation — the just-pushed user message and the
loading placeholder, both of which pass the error/image filter and occupy
the two last slots — are excluded by `slice(0, -2)`. -/
theorem streaming_history_excludes_pushed (env : TurnEnv) (content : String)
    (prior : List Message)
    (hguard : ¬ jsTrim content = "")
    (hkey : env.apiKey = true)
    (hpath : dispatchPath content false = DispatchPath.textStream) :
    (submitTurn env content none none prior).history
      = some ((prior.filter keepInHistory).map toHistoryEntry) := by
  unfold submitTurn
  rw [if_neg (fun hand => hguard hand.1)]
  rw [if_neg (by simp [hkey])]
  simp only [Option.isSome_none]
  rw [hpath]
  dsimp only
  rw [streamBranch_history]
  rw [buildChatHistory_append_two prior ⟨MessageRole.user, content, none⟩
    ⟨MessageRole.model, LOADING_INDICATOR_CONTENT, none⟩ rfl rfl]

/-- Claim **C6 witness**: a concrete streaming turn whose conversation already
holds an error message and an image-bearing message: the history is the
filtered prior list without the pushed pair. -/
theorem streaming_history_excludes_pushed_witness :
    (submitTurn ⟨true, Except.error "x", Except.error "x", Except.error "x", ["Hi"], none, none⟩
        "hello" none none
        [⟨MessageRole.user, "a", none⟩, ⟨MessageRole.error, "bad", none⟩,
          ⟨MessageRole.model, "pic", some "data:x"⟩, ⟨MessageRole.model, "b", none⟩]).history
      = some ((([⟨MessageRole.user, "a", none⟩, ⟨MessageRole.error, "bad", none⟩,
          ⟨MessageRole.model, "pic", some "data:x"⟩, ⟨MessageRole.model, "b", none⟩] :
            List Message).filter keepInHistory).map toHistoryEntry) :=
  streaming_history_excludes_pushed
    ⟨true, Except.error "x", Except.error "x", Except.error "x", ["Hi"], none, none⟩
    "hello"
    [⟨MessageRole.user, "a", none⟩, ⟨MessageRole.error, "bad", none⟩,
      ⟨MessageRole.model, "pic", some "data:x"⟩, ⟨MessageRole.model, "b", none⟩]
    (by decide) rfl (by decide)

/-- Claim **C4**: For every streaming turn in which the cancellation flag becomes
set at pull `k` of the stream (mid-stream, the stream itself healthy),
chunk consumption stops after the first `k` chunks, the already-applied
partial output is kept, the terminal marker is appended exactly once to the
last model message, and `isLoading` is false after the turn finishes. -/
theorem submitTurn_cancel_marker (env : TurnEnv) (content : String) (prior : List Message)
    (k : Nat)
    (hguard : ¬ jsTrim content = "")
    (hkey : env.apiKey = true)
    (hpath : dispatchPath content false = DispatchPath.textStream)
    (herr : env.streamErr = none)
    (hstop : env.stopAt = some k)
    (hk : k ≤ env.chunks.length) :
    (submitTurn env content none none prior).messages
      = prior ++ [⟨MessageRole.user, content, none⟩,
          ⟨MessageRole.model, concatChunks (env.chunks.take k) ++ stopMarker, none⟩] ∧
    (submitTurn env content none none prior).isLoading = false := by
  unfold submitTurn
  rw [if_neg (fun hand => hguard hand.1)]
  rw [if_neg (by simp [hkey])]
  simp only [Option.isSome_none]
  rw [hpath]
  dsimp only
  unfold streamBranch
  have hloop := streamLoop_stop env k herr hstop env.chunks 0
    (prior ++ [⟨MessageRole.user, content, none⟩,
      ⟨MessageRole.model, LOADING_INDICATOR_CONTENT, none⟩]) "" (Nat.zero_le k)
  rcases hsl : streamLoop env env.chunks 0
      (prior ++ [⟨MessageRole.user, content, none⟩,
        ⟨MessageRole.model, LOADING_INDICATOR_CONTENT, none⟩]) "" with ⟨msgs2, acc2, oc⟩
  rw [hsl] at hloop
  obtain ⟨h1, h2⟩ := hloop
  simp only [Nat.sub_zero] at h1 h2
  by_cases hle : env.chunks.length ≤ k
  · rw [if_pos hle] at h2
    subst h2
    rw [hsl]
    dsimp only
    rw [if_pos (by rw [hstop]; exact decide_eq_true hk)]
    refine ⟨?_, rfl⟩
    rw [h1, turn_finalize_shape]
  · rw [if_neg hle] at h2
    subst h2
    rw [hsl]
    dsimp only
    refine ⟨?_, rfl⟩
    rw [h1, turn_finalize_shape]

/-- Claim **C4 witness**: a concrete turn stopped after one of two chunks keeps
the partial output and appends the marker once, with `isLoading` false. -/
theorem submitTurn_cancel_marker_witness :
    (submitTurn ⟨true, Except.error "x", Except.error "x", Except.error "x",
        ["Hi", "there"], none, some 1⟩ "hello" none none []).messages
      = [] ++ [⟨MessageRole.user, "hello", none⟩,
          ⟨MessageRole.model,
            concatChunks ((["Hi", "there"] : List String).take 1) ++ stopMarker, none⟩] ∧
    (submitTurn ⟨true, Except.error "x", Except.error "x", Except.error "x",
        ["Hi", "there"], none, some 1⟩ "hello" none none []).isLoading = false :=
  submitTurn_cancel_marker
    ⟨true, Except.error "x", Except.error "x", Except.error "x", ["Hi", "there"], none, some 1⟩
    "hello" [] 1 (by decide) rfl (by decide) rfl rfl (by decide)

/-- Claim **C2 counterexample**: a successfully completed streaming turn (nothing
thrown, no cancellation) whose single chunk is the string
`"___LOADING___"` ends with the last message content equal to the
loading-placeholder sentinel — so "after the turn completes the last
message is never the loading-placeholder sentinel" is false as stated. -/
theorem submitTurn_sentinel_counterexample :
    (submitTurn ⟨true, Except.error "x", Except.error "x", Except.error "x",
        ["___LOADING___"], none, none⟩ "hi" none none []).caught = none ∧
    ((submitTurn ⟨true, Except.error "x", Except.error "x", Except.error "x",
        ["___LOADING___"], none, none⟩ "hi" none none []).messages.getLast?).map
        Message.content
      = some LOADING_INDICATOR_CONTENT := by
  exact ⟨rfl, rfl⟩

/-- Claim **C2 (amended)**: For every turn (any of the three dispatch paths) on
an existing conversation, if any exception is thrown (remote-call failure,
missing credential, or validation throw) then the turn catches it, removes
the placeholder slot and appends an error-role message with the
user-visible friendly text in its place; `isLoading` is false after the
turn; and after the turn completes (success, cancellation, or error) the
last message is never the loading-placeholder sentinel — provided the
remote text output (the image-understanding response text, and the chunk
concatenation of a stream that completes uncancelled) is not itself the
sentinel string. -/
theorem submitTurn_turn_boundary (env : TurnEnv) (content : String)
    (imageFile imagePreview : Option String) (prior : List Message)
    (hguard : ¬ (jsTrim content = "" ∧ imageFile = none))
    (htext : ∀ t i, env.genContent = Except.ok (t, i) → t ≠ LOADING_INDICATOR_CONTENT)
    (hchunks : concatChunks env.chunks ≠ LOADING_INDICATOR_CONTENT) :
    (submitTurn env content imageFile imagePreview prior).isLoading = false ∧
    (∀ e, (submitTurn env content imageFile imagePreview prior).caught = some e →
      (submitTurn env content imageFile imagePreview prior).messages
        = prior ++ [⟨MessageRole.user, content, imagePreview⟩,
            ⟨MessageRole.error, friendlyMessage content imageFile.isSome e, none⟩]) ∧
    ((submitTurn env content imageFile imagePreview prior).messages.getLast?).map
        Message.content ≠ some LOADING_INDICATOR_CONTENT := by
  unfold submitTurn
  rw [if_neg hguard]
  by_cases hA : env.apiKey = false
  · rw [if_pos hA]
    exact catchTurn_boundary prior _ _ content imageFile.isSome _ none _
  · rw [if_neg hA]
    cases hd : dispatchPath content imageFile.isSome with
    | imageGen =>
      dsimp only
      split
      · exact catchTurn_boundary prior _ _ content imageFile.isSome _ none _
      · cases hg : env.genImage with
        | error e => exact catchTurn_boundary prior _ _ content imageFile.isSome _ none _
        | ok bytes =>
          refine ⟨rfl, fun e he => absurd he (by simp), ?_⟩
          rw [dropLast_append_two]
          exact lastContent_ne _ _
            (append_ne_of_head "> " _ _ '>' _ rfl (by decide))
    | imageUnderstand =>
      dsimp only
      cases hf : env.fileB64 with
      | error e => exact catchTurn_boundary prior _ _ content imageFile.isSome _ none _
      | ok b64 =>
        cases hg : env.genContent with
        | error e => exact catchTurn_boundary prior _ _ content imageFile.isSome _ none _
        | ok ti =>
          rcases ti with ⟨t0, i0⟩
          refine ⟨rfl, fun e he => absurd he (by simp), ?_⟩
          rw [dropLast_append_two]
          apply lastContent_ne
          by_cases ht0 : t0 = ""
          · rw [if_neg (by simp [ht0])]
            cases i0 with
            | some iurl => exact (by decide : ¬("" = LOADING_INDICATOR_CONTENT))
            | none =>
              exact (by decide : ¬("Image processed successfully." = LOADING_INDICATOR_CONTENT))
          · rw [if_pos (by simp [ht0])]
            exact htext t0 i0 hg
    | textStream =>
      dsimp only
      unfold streamBranch
      obtain ⟨t, htle, h1, hcomp⟩ := streamLoop_shape env env.chunks 0
        (prior ++ [⟨MessageRole.user, content, imagePreview⟩,
          ⟨MessageRole.model, LOADING_INDICATOR_CONTENT, none⟩]) ""
      rcases hsl : streamLoop env env.chunks 0
          (prior ++ [⟨MessageRole.user, content, imagePreview⟩,
            ⟨MessageRole.model, LOADING_INDICATOR_CONTENT, none⟩]) "" with ⟨msgs2, acc2, oc⟩
      rw [hsl] at h1 hcomp
      dsimp only at h1 hcomp
      rw [hsl]
      cases oc with
      | threw e0 =>
        dsimp only
        rw [h1, show prior ++ [⟨MessageRole.user, content, imagePreview⟩,
            (⟨MessageRole.model, LOADING_INDICATOR_CONTENT, none⟩ : Message)]
          = (prior ++ [⟨MessageRole.user, content, imagePreview⟩]) ++
              [⟨MessageRole.model, LOADING_INDICATOR_CONTENT, none⟩] by simp,
          applyChunks_concat,
          show (prior ++ [⟨MessageRole.user, content, imagePreview⟩]) ++
              [(⟨MessageRole.model,
                foldContent LOADING_INDICATOR_CONTENT (env.chunks.take t), none⟩ : Message)]
            = prior ++ [⟨MessageRole.user, content, imagePreview⟩,
                ⟨MessageRole.model,
                  foldContent LOADING_INDICATOR_CONTENT (env.chunks.take t), none⟩] by simp]
        exact catchTurn_boundary prior _ _ content imageFile.isSome _ _ e0
      | stoppedBreak =>
        dsimp only
        refine ⟨rfl, fun e he => absurd he (by simp), ?_⟩
        rw [h1, turn_finalize_shape,
          show prior ++ [⟨MessageRole.user, content, imagePreview⟩,
              (⟨MessageRole.model,
                concatChunks (env.chunks.take t) ++ stopMarker, none⟩ : Message)]
            = (prior ++ [⟨MessageRole.user, content, imagePreview⟩]) ++
                [⟨MessageRole.model,
                  concatChunks (env.chunks.take t) ++ stopMarker, none⟩] by simp]
        exact lastContent_ne _ _ (append_stopMarker_ne_sentinel _)
      | completed =>
        dsimp only
        have ht' : t = env.chunks.length := hcomp rfl
        subst ht'
        rw [List.take_length] at h1
        split
        · refine ⟨rfl, fun e he => absurd he (by simp), ?_⟩
          rw [h1, turn_finalize_shape,
            show prior ++ [⟨MessageRole.user, content, imagePreview⟩,
                (⟨MessageRole.model, concatChunks env.chunks ++ stopMarker, none⟩ : Message)]
              = (prior ++ [⟨MessageRole.user, content, imagePreview⟩]) ++
                  [⟨MessageRole.model, concatChunks env.chunks ++ stopMarker, none⟩] by simp]
          exact lastContent_ne _ _ (append_stopMarker_ne_sentinel _)
        · refine ⟨rfl, fun e he => absurd he (by simp), ?_⟩
          rw [h1, turn_finalize_shape,
            show prior ++ [⟨MessageRole.user, content, imagePreview⟩,
                (⟨MessageRole.model, concatChunks env.chunks ++ "", none⟩ : Message)]
              = (prior ++ [⟨MessageRole.user, content, imagePreview⟩]) ++
                  [⟨MessageRole.model, concatChunks env.chunks ++ "", none⟩] by simp]
          apply lastContent_ne
          rw [String.append_empty]
          exact hchunks

/-- Claim **C2 witness**: a concrete turn whose remote stream throws after one
chunk: the exception is caught, the placeholder slot is replaced by the
friendly error message, `isLoading` is cleared, and the final last message
is not the sentinel. -/
theorem submitTurn_turn_boundary_witness :
    (submitTurn ⟨true, Except.error "x", Except.error "x", Except.error "x",
        ["Hi"], some (1, "boom"), none⟩ "hello" none none []).isLoading = false ∧
    (∀ e, (submitTurn ⟨true, Except.error "x", Except.error "x", Except.error "x",
        ["Hi"], some (1, "boom"), none⟩ "hello" none none []).caught = some e →
      (submitTurn ⟨true, Except.error "x", Except.error "x", Except.error "x",
          ["Hi"], some (1, "boom"), none⟩ "hello" none none []).messages
        = [] ++ [⟨MessageRole.user, "hello", none⟩,
            ⟨MessageRole.error,
              friendlyMessage "hello" (none : Option String).isSome e, none⟩]) ∧
    ((submitTurn ⟨true, Except.error "x", Except.error "x", Except.error "x",
        ["Hi"], some (1, "boom"), none⟩ "hello" none none []).messages.getLast?).map
        Message.content ≠ some LOADING_INDICATOR_CONTENT :=
  submitTurn_turn_boundary
    ⟨true, Except.error "x", Except.error "x", Except.error "x", ["Hi"], some (1, "boom"), none⟩
    "hello" none none []
    (fun h => by exact absurd h.1 (by decide))
    (fun t i h => absurd h (by simp))
    (by decide)

end CVSai
